import Mathlib

/-!
Shallow embedding of the Minitel serial-terminal driver (minitel.js) and the
behaviours its specification describes: the character codec, the command
encoder (cursor moves, format switches, repeat compression), the device
identification parser, the connect-time speed negotiation, the speed-upgrade
handshake, the input framer and the reply-correlation mechanism.

Byte values are modelled as `Nat` (all protocol bytes are < 256 and no
arithmetic overflows occur: the largest computed byte is 0x40 + 64).
JavaScript strings are modelled as `List Char` / `String`; `char.charCodeAt(0)`
becomes `Char.toNat` (all characters that reach it in the source are in the
basic multilingual plane).
-/

namespace Minitel

/-! ### Protocol control codes (static get CODES in the source) -/

namespace CODES

def BEL : Nat := 0x07
def LF : Nat := 0x0A
def FF : Nat := 0x0C
def CR : Nat := 0x0D
def CON : Nat := 0x11
def COFF : Nat := 0x14
-- named FUNCTION_KEY_PREFIX in the source
def FUNCTION_KEY_LEAD : Nat := 0x13
def KEY_ENVOI : Nat := 0x41
def ESC : Nat := 0x1B
def HOME : Nat := 0x1E
def US : Nat := 0x1F
def WHITE : Nat := 0x47
def GRAY_VERY_LIGHT : Nat := 0x43
def GRAY_LIGHT : Nat := 0x46
def GRAY_MEDIUM_LIGHT : Nat := 0x42
def GRAY_MEDIUM : Nat := 0x45
def GRAY_MEDIUM_DARK : Nat := 0x41
def GRAY_DARK : Nat := 0x44
def BLACK : Nat := 0x40
def WHITE_BACKGROUND : Nat := 0x57
def BLACK_BACKGROUND : Nat := 0x50
def SIZE_NORMAL : Nat := 0x4C
def SIZE_DOUBLE_HEIGHT : Nat := 0x4D
def SIZE_DOUBLE_WIDTH : Nat := 0x4E
def SIZE_DOUBLE : Nat := 0x4F
def BLINK : Nat := 0x48
def STEADY : Nat := 0x49
def PRO1 : Nat := 0x39
def PRO2 : Nat := 0x3A
def PRO3 : Nat := 0x3B
def PROG_VITESSE : Nat := 0x6B
def AIGUILLAGE_OFF : Nat := 0x60
def AIGUILLAGE_FROM : Nat := 0x63
def MODEM_EMETTEUR : Nat := 0x52
def ECRAN_RECEPTEUR : Nat := 0x58
def SOH : Nat := 0x01
def EOT : Nat := 0x04
def REP : Nat := 0x12
-- named ACCENT_PREFIX in the source
def ACCENT_LEAD : Nat := 0x19
def ENQROM : Nat := 0x7B
def CURSOR_OFFSET : Nat := 0x40

end CODES

/-! ### Character codec (static charToMinitel) -/

/-- The accent / special-symbol / typographic-quote conversion table of
`charToMinitel` (the `accentMap` object literal in the source), keyed by the
Unicode character, value the emitted byte sequence. -/
def accentMap : List (Char × List Nat) := [
  ('à', [0x19, 0x41, 0x61]),
  ('è', [0x19, 0x41, 0x65]),
  ('ù', [0x19, 0x41, 0x75]),
  ('À', [0x19, 0x41, 0x41]),
  ('È', [0x19, 0x41, 0x45]),
  ('Ù', [0x19, 0x41, 0x55]),
  ('é', [0x19, 0x42, 0x65]),
  ('É', [0x19, 0x42, 0x45]),
  ('â', [0x19, 0x43, 0x61]),
  ('ê', [0x19, 0x43, 0x65]),
  ('î', [0x19, 0x43, 0x69]),
  ('ô', [0x19, 0x43, 0x6F]),
  ('û', [0x19, 0x43, 0x75]),
  ('Â', [0x19, 0x43, 0x41]),
  ('Ê', [0x19, 0x43, 0x45]),
  ('Î', [0x19, 0x43, 0x49]),
  ('Ô', [0x19, 0x43, 0x4F]),
  ('Û', [0x19, 0x43, 0x55]),
  ('ë', [0x19, 0x48, 0x65]),
  ('ï', [0x19, 0x48, 0x69]),
  ('ü', [0x19, 0x48, 0x75]),
  ('Ë', [0x19, 0x48, 0x45]),
  ('Ï', [0x19, 0x48, 0x49]),
  ('Ü', [0x19, 0x48, 0x55]),
  ('ç', [0x19, 0x4B, 0x63]),
  ('Ç', [0x19, 0x4B, 0x43]),
  ('œ', [0x19, 0x7A]),
  ('Œ', [0x19, 0x6A]),
  ('£', [0x19, 0x23]),
  ('§', [0x19, 0x27]),
  ('←', [0x19, 0x2C]),
  ('↑', [0x19, 0x2D]),
  ('→', [0x19, 0x2E]),
  ('↓', [0x19, 0x2F]),
  ('°', [0x19, 0x30]),
  ('±', [0x19, 0x31]),
  ('¼', [0x19, 0x3C]),
  ('½', [0x19, 0x3D]),
  ('¾', [0x19, 0x3E]),
  ('β', [0x19, 0x7B]),
  ('’', [0x27]),
  ('‘', [0x27]),
  ('”', [0x22]),
  ('“', [0x22]),
  ('«', [0x22]),
  ('»', [0x22]),
  ('‹', [0x27]),
  ('›', [0x27])
]

/-- `Minitel.charToMinitel(char)`: table hit returns the table sequence;
otherwise a character with code point at most 127 passes through as a single
byte and anything else becomes the placeholder byte 0x3F. -/
def charToMinitel (c : Char) : List Nat :=
  match accentMap.lookup c with
  | some bs => bs
  | none => if c.toNat ≤ 127 then [c.toNat] else [0x3F]

/-- The byte sequence `writeText` sends for a string (the concatenation of the
per-character encodings). -/
def writeText (text : List Char) : List Nat :=
  (text.map charToMinitel).flatten

/-- `Minitel.writeRepeated(char, count)`: literal sends for counts up to 3, a
single REP sequence for counts 4..64, recursive split into chunks of 64 above
that. Returns the emitted byte sequence. -/
def writeRepeated (c : Char) (n : Nat) : List Nat :=
  if n = 0 then []
  else if n ≤ 3 then writeText (List.replicate n c)
  else if _h : n ≤ 64 then [c.toNat, CODES.REP, n - 1 + 64]
  else writeRepeated c 64 ++ writeRepeated c (n - 64)
termination_by n
decreasing_by
  · omega
  · omega

/-! ### parseFunctionKey -/

/-- `Minitel.parseFunctionKey(data)`: the key code when the event is exactly
2 bytes beginning with the function-key lead byte 0x13, otherwise `none`. -/
def parseFunctionKey (data : List Nat) : Option Nat :=
  if data.length = 2 ∧ data.getD 0 0 = CODES.FUNCTION_KEY_LEAD then
    some (data.getD 1 0)
  else
    none

/-! ### Command encoder: moveCursor, setFormat -/

/-- Validation errors thrown by the encoder (`throw new Error(...)` in the
source; a thrown error means no bytes are sent). -/
inductive CmdError
  /-- Position curseur invalide (ligne: 0-24, colonne: 1-40) -/
  | invalidCursor
  /-- Format invalide, with the list of valid format names -/
  | invalidFormat (validNames : List String)
deriving DecidableEq

/-- `Minitel.moveCursor(row, col)`: validates the range and sends
US, 0x40+row, 0x40+col. Coordinates are JavaScript numbers, modelled as `Int`
so that negative arguments are representable. -/
def moveCursor (row col : Int) : Except CmdError (List Nat) :=
  if row < 0 ∨ row > 24 ∨ col < 1 ∨ col > 40 then
    Except.error CmdError.invalidCursor
  else
    Except.ok [CODES.US, (CODES.CURSOR_OFFSET + row).toNat, (CODES.CURSOR_OFFSET + col).toNat]

/-- The `formatCodes` name-to-byte table inside `setFormat`. -/
def formatCodes : List (String × Nat) := [
  ("white", CODES.WHITE),
  ("very-light", CODES.GRAY_VERY_LIGHT),
  ("light", CODES.GRAY_LIGHT),
  ("medium-light", CODES.GRAY_MEDIUM_LIGHT),
  ("medium", CODES.GRAY_MEDIUM),
  ("medium-dark", CODES.GRAY_MEDIUM_DARK),
  ("dark", CODES.GRAY_DARK),
  ("black", CODES.BLACK),
  ("white-background", CODES.WHITE_BACKGROUND),
  ("black-background", CODES.BLACK_BACKGROUND),
  ("normal", CODES.SIZE_NORMAL),
  ("double-height", CODES.SIZE_DOUBLE_HEIGHT),
  ("double-width", CODES.SIZE_DOUBLE_WIDTH),
  ("double", CODES.SIZE_DOUBLE),
  ("blink", CODES.BLINK),
  ("steady", CODES.STEADY)
]

/-- Models JavaScript `String.prototype.toLowerCase` on the strings that can
reach the format table (they only need ASCII lowering to hit or miss the
all-ASCII keys). -/
def jsToLower (s : String) : String :=
  String.mk (s.data.map Char.toLower)

/-- `setFormat(code)` accepts either a string name or a raw numeric code
(`typeof code === "string"` test in the source). -/
inductive FormatArg
  | str (s : String)
  | num (n : Nat)

/-- `Minitel.setFormat(code)`: a string is lowercased and resolved through
`formatCodes` (unknown names throw, listing the valid names); a number is sent
as-is. On success the bytes ESC, code are sent. -/
def setFormat : FormatArg → Except CmdError (List Nat)
  | FormatArg.num n => Except.ok [CODES.ESC, n]
  | FormatArg.str s =>
    match formatCodes.lookup (jsToLower s) with
    | some c => Except.ok [CODES.ESC, c]
    | none => Except.error (CmdError.invalidFormat (formatCodes.map Prod.fst))

/-- Whether an `Except` result is an error (a throw before any byte is sent). -/
def isErr {ε α : Type} : Except ε α → Bool
  | Except.error _ => true
  | Except.ok _ => false

/-! ### Device identification (static parseDeviceIdentification) -/

/-- One row of the constructeur+type lookup table. -/
structure DeviceModel where
  name : String
  maxSpeed : Nat
deriving DecidableEq

/-- The `typeLookup` table of `parseDeviceIdentification`. -/
def typeLookup : List (String × DeviceModel) := [
  ("Cb", ⟨"Minitel 1 (Télic)", 1200⟩),
  ("Cc", ⟨"Minitel 1 (Télic AZERTY)", 1200⟩),
  ("Cr", ⟨"Minitel 1 (Télic/Matra)", 1200⟩),
  ("Bc", ⟨"Minitel 1 (Radiotechnique)", 1200⟩),
  ("Br", ⟨"Minitel 1 (RTIC)", 1200⟩),
  ("Bs", ⟨"Minitel 1 Couleur (RTIC)", 1200⟩),
  ("Cu", ⟨"Minitel 1B (Télic/Matra)", 4800⟩),
  ("Bu", ⟨"Minitel 1B (RTIC)", 4800⟩),
  ("Cd", ⟨"Minitel 10 (Télic)", 4800⟩),
  ("Cf", ⟨"Minitel 10 (Télix)", 4800⟩),
  ("Cw", ⟨"Minitel 10B (Télix)", 4800⟩),
  ("Cv", ⟨"Minitel 2 (Télic)", 9600⟩),
  ("Bv", ⟨"Minitel 2 (Philips)", 9600⟩),
  ("Cz", ⟨"Minitel 12 (Télic)", 4800⟩),
  ("Bz", ⟨"Minitel 12 (Philips)", 9600⟩),
  ("Ay", ⟨"Minitel 5 (Matra)", 4800⟩),
  ("Cp", ⟨"Magis Club", 9600⟩)
]

/-- The device descriptor built from an identification reply.  The source
stores the raw reply as a hex string; we keep the raw bytes. -/
structure DeviceInfo where
  name : String
  maxSpeed : Nat
  constructeur : Char
  typeChar : Char
  version : Char
  rawResponse : List Nat

/-- `Minitel.parseDeviceIdentification(data)`: SOH + constructeur + type +
version + EOT; lookup on the two-character constructeur+type code, falling
back to the bistandard heuristic (type `u` or `w` means 4800, else 1200). -/
def parseDeviceIdentification (data : List Nat) : Option DeviceInfo :=
  if data.length < 5 then none
  else if data.getD 0 0 ≠ CODES.SOH then none
  else
    let constructeur := Char.ofNat (data.getD 1 0)
    let ty := Char.ofNat (data.getD 2 0)
    let version := Char.ofNat (data.getD 3 0)
    let typeCode := String.mk [constructeur, ty]
    match typeLookup.lookup typeCode with
    | some m =>
      some ⟨m.name, m.maxSpeed, constructeur, ty, version, data⟩
    | none =>
      some ⟨"Minitel " ++ typeCode ++ String.mk [version],
            if ty = 'u' ∨ ty = 'w' then 4800 else 1200,
            constructeur, ty, version, data⟩

/-! ### Speed negotiation (connect / _connectAtBaudRate / _queryDevice) -/

/-- The reply predicate `_queryDevice` passes to `_waitForResponse`:
`data.length >= 5 && data[0] === SOH` (starts with the framing marker and is
at least 5 bytes long). -/
def identMatches (data : List Nat) : Bool :=
  decide (5 ≤ data.length) && (data.getD 0 0 == CODES.SOH)

/-- Outcome of probing one candidate speed, as seen by `_connectAtBaudRate`:
the serial port fails to open, the identification wait times out (no
predicate-matching reply arrives in time), or a predicate-matching reply
`data` arrives. -/
inductive ProbeResult
  | openFail
  | timeout
  | identified (data : List Nat)

/-- Externally observable transport events of one connect() run. -/
inductive ConnEv
  | openPort (rate : Nat)
  | sendQuery
  | closePort
  | clearScreen
deriving DecidableEq

/-- An environment is well formed when every reply it hands to the
identification wait satisfies the wait predicate (which is how
`_waitForResponse` selects it). -/
def ProbeEnvWF (env : Nat → ProbeResult) : Prop :=
  ∀ r d, env r = ProbeResult.identified d → identMatches d = true

/-- The transport events one candidate produces inside the connect() loop:
open; on open failure nothing else (the catch finds no open port to close);
on timeout the query was sent and the catch closes the port; on a matching
reply the query was sent and the screen is cleared (the success path), unless
the parse yields nothing, in which case `_connectAtBaudRate` rejects and the
catch closes the port. -/
def candidateTrace (env : Nat → ProbeResult) (r : Nat) : List ConnEv :=
  match env r with
  | ProbeResult.openFail => [ConnEv.openPort r]
  | ProbeResult.timeout => [ConnEv.openPort r, ConnEv.sendQuery, ConnEv.closePort]
  | ProbeResult.identified d =>
    match parseDeviceIdentification d with
    | some _ => [ConnEv.openPort r, ConnEv.sendQuery, ConnEv.clearScreen]
    | none => [ConnEv.openPort r, ConnEv.sendQuery, ConnEv.closePort]

/-- Whether `_connectAtBaudRate` resolves at rate `r` under `env`. -/
def candidateSucceeds (env : Nat → ProbeResult) (r : Nat) : Bool :=
  match env r with
  | ProbeResult.identified d => (parseDeviceIdentification d).isSome
  | _ => false

/-- The `for (const rate of baudRates)` loop of connect(): try each candidate
in order, stopping at the first success; gather the transport events and the
rate at which identification succeeded (`none` models the final throw). -/
def connectGo (env : Nat → ProbeResult) : List Nat → List ConnEv × Option Nat
  | [] => ([], none)
  | r :: rest =>
    if candidateSucceeds env r then (candidateTrace env r, some r)
    else
      let p := connectGo env rest
      (candidateTrace env r ++ p.1, p.2)

/-- The candidate speeds tried in auto mode (`const baudRates = [1200, 4800, 9600]`). -/
def connectCandidates : List Nat := [1200, 4800, 9600]

/-- `connect()` with `baudRate: "auto"`. -/
def connectAuto (env : Nat → ProbeResult) : List ConnEv × Option Nat :=
  connectGo env connectCandidates

/-! ### Speed upgrade (_upgradeSpeed and the connect tail that calls it) -/

/-- The driver connection state the upgrade mutates. -/
structure ConnState where
  currentBaudRate : Nat
  portOpen : Bool
deriving DecidableEq

/-- The `speedCodes` table of `_upgradeSpeed`. -/
def speedCodes : List (Nat × Nat) := [
  (300, 0x52),
  (1200, 0x64),
  (4800, 0x76),
  (9600, 0x7F)
]

/-- Externally observable events of one `_upgradeSpeed` run. -/
inductive UpgEv
  | sendSpeedCmd (code : Nat)
  | closePort
  | reopenAt (rate : Nat)
deriving DecidableEq

/-- `Minitel._upgradeSpeed(newSpeed)`, with the two fallible steps (the
command write and the reopen of the port at the new speed) driven by the
environment flags `writeOk` and `reopenOk`.  Returns the event trace, the
resulting connection state and whether the upgrade succeeded (a `false`
models the function throwing).  Note the source assigns
`this.currentBaudRate = newSpeed` after closing the old port and before the
reopen, so a reopen failure still leaves the new speed recorded. -/
def upgradeSpeed (writeOk reopenOk : Bool) (newSpeed : Nat) (s : ConnState) :
    List UpgEv × ConnState × Bool :=
  match speedCodes.lookup newSpeed with
  | none => ([], s, false)
  | some code =>
    if writeOk = false then
      ([], s, false)
    else
      ([UpgEv.sendSpeedCmd code, UpgEv.closePort, UpgEv.reopenAt newSpeed],
       ⟨newSpeed, reopenOk⟩, reopenOk)

/-- The upgrade step of `_connectAtBaudRate` (after identification and the
screen clear): upgrade when enabled and the device supports more than the
current rate; any upgrade error is caught and only logged, and `resolve()`
runs regardless.  The final `Bool` is whether connect() resolves. -/
def finishConnect (autoUpgradeSpeed : Bool) (maxSpeed : Nat)
    (writeOk reopenOk : Bool) (s : ConnState) : List UpgEv × ConnState × Bool :=
  if autoUpgradeSpeed && decide (maxSpeed > s.currentBaudRate) then
    let r := upgradeSpeed writeOk reopenOk maxSpeed s
    (r.1, r.2.1, true)
  else
    ([], s, true)

/-! ### Input framer and reply correlation (handleInputData / _waitForResponse)

The class defines `_waitForResponse` twice.  The first definition (the
`expectedReplies` entry registry) is shadowed by the second (which replaces
`this.onData` with an accumulating handler and restores it on match or
timeout); in JavaScript the later method definition wins, so every call site
gets the second one.  `handleInputData` still scans `expectedReplies` on each
flush before falling through to `this.onData`.  The machine below models
exactly that: the entry scan of `handleInputData`, the onData override of the
active `_waitForResponse`, and the application deliveries. -/

/-- A Pending Reply Entry of the (shadowed) first `_waitForResponse`:
an identifier and a predicate over the flushed bytes. -/
structure ReplyEntry where
  id : Nat
  pred : List Nat → Bool

/-- The state of an outstanding wait of the active (second)
`_waitForResponse`: its predicate and the bytes accumulated so far
(`responseData` in the source). -/
structure WaitState where
  pred : List Nat → Bool
  responseData : List Nat

/-- How a wait ended: resolved with the accumulated buffer that satisfied the
predicate, or rejected by its timeout. -/
inductive WaitOutcome
  | resolved (data : List Nat)
  | timedOut
deriving DecidableEq

/-- The input-side driver state: the `expectedReplies` collection and its id
counter, the active wait (when `this.onData` is currently the wait's
accumulating handler), the events delivered to the application's own onData,
the outcome of the most recent wait, and the entries resolved through the
`expectedReplies` scan (with the bytes each one got). -/
structure DriverIn where
  expectedReplies : List ReplyEntry
  nextReplyId : Nat
  waiting : Option WaitState
  appDelivered : List (List Nat)
  waitOutcome : Option WaitOutcome
  resolvedEntries : List (Nat × List Nat)

/-- The driver state right after construction. -/
def initDriver : DriverIn := ⟨[], 0, none, [], none, []⟩

/-- The active (second) `_waitForResponse(predicate, timeout)`: replace
`this.onData` with an accumulating handler.  It does not touch
`expectedReplies`. -/
def registerWait (p : List Nat → Bool) (d : DriverIn) : DriverIn :=
  { d with waiting := some ⟨p, []⟩ }

/-- The `for (let i = 0; ...)` scan of `handleInputData`: the first entry (in
registration order) whose predicate accepts the flushed bytes, together with
the collection with that entry spliced out. -/
def firstMatch (b : List Nat) : List ReplyEntry → Option (ReplyEntry × List ReplyEntry)
  | [] => none
  | e :: rest =>
    if e.pred b then some (e, rest)
    else
      match firstMatch b rest with
      | some (m, rest2) => some (m, e :: rest2)
      | none => none

/-- The body of the flush timer of `handleInputData`, applied to the flushed
bytes `b` (the accumulated input, already cleared from the accumulator): scan
`expectedReplies` first; a match resolves that entry with `b` and consumes
the event; otherwise `b` goes to `this.onData` — the wait's accumulating
handler when a wait is outstanding (appending `b` and resolving on a
predicate match over the accumulation), the application callback otherwise. -/
def flushInput (b : List Nat) (d : DriverIn) : DriverIn :=
  match firstMatch b d.expectedReplies with
  | some (e, rest) =>
    { d with expectedReplies := rest,
             resolvedEntries := d.resolvedEntries ++ [(e.id, b)] }
  | none =>
    match d.waiting with
    | some w =>
      let acc := w.responseData ++ b
      if w.pred acc then
        { d with waiting := none, waitOutcome := some (WaitOutcome.resolved acc) }
      else
        { d with waiting := some ⟨w.pred, acc⟩ }
    | none => { d with appDelivered := d.appDelivered ++ [b] }

/-- The timeout of the active `_waitForResponse` firing: cleanup restores the
application's onData and the promise rejects.  If no wait is outstanding the
timer was cleared (cleanup ran) and nothing happens. -/
def fireWaitTimer (d : DriverIn) : DriverIn :=
  match d.waiting with
  | some _ => { d with waiting := none, waitOutcome := some WaitOutcome.timedOut }
  | none => d

/-- The events the input side reacts to: a framer flush delivering bytes, a
call to the active `_waitForResponse`, the wait timeout firing. -/
inductive DrvEv
  | flushEv (b : List Nat)
  | regWaitEv (p : List Nat → Bool)
  | timerEv

/-- One input-side step. -/
def stepEv (d : DriverIn) : DrvEv → DriverIn
  | DrvEv.flushEv b => flushInput b d
  | DrvEv.regWaitEv p => registerWait p d
  | DrvEv.timerEv => fireWaitTimer d

/-- Run a sequence of input-side events. -/
def runEvents (d : DriverIn) (evs : List DrvEv) : DriverIn :=
  evs.foldl stepEv d

/-- Discriminates wait registrations (used to restrict traces to the life of
a single wait). -/
def isRegEv : DrvEv → Bool
  | DrvEv.regWaitEv _ => true
  | _ => false

/-- The byte sequences flushed by a sequence of events. -/
def flushedOf (evs : List DrvEv) : List (List Nat) :=
  evs.filterMap fun e =>
    match e with
    | DrvEv.flushEv b => some b
    | _ => none

/-! ### Input framer timing (the accumulator and the 50 ms inactivity timer)

`handleInputData` appends every received byte to `inputBuffer` and (re)arms a
single 50 ms timer; the timer flushes the whole buffer as one event.  The
timed behaviour is modelled over a list of (arrival time, bytes) chunks with
strictly increasing times: a chunk restarts the timer, and the pending flush
happens before a chunk whose arrival time exceeds the previous deadline. -/

/-- The inactivity window of `handleInputData` (the 50 in `setTimeout(..., 50)`). -/
def inactivityWindow : Nat := 50

/-- The framer, carrying the current accumulator and the deadline of the
pending timer (last arrival time + window). -/
def frameAux (acc : List Nat) (deadline : Nat) :
    List (Nat × List Nat) → List (List Nat)
  | [] => if acc.isEmpty then [] else [acc]
  | (t, bs) :: rest =>
    if acc.isEmpty = false ∧ deadline < t then
      acc :: frameAux bs (t + inactivityWindow) rest
    else
      frameAux (acc ++ bs) (t + inactivityWindow) rest

/-- The logical input events the framer produces from timed byte arrivals. -/
def frame (arrivals : List (Nat × List Nat)) : List (List Nat) :=
  frameAux [] 0 arrivals

/-! ## Helper lemmas -/

/-- A lookup into an association list whose keys all have code points above
127 misses every character with code point at most 127. -/
theorem lookup_none_of_high (l : List (Char × List Nat)) (c : Char)
    (hl : ∀ p ∈ l, 127 < p.1.toNat) (hc : c.toNat ≤ 127) :
    l.lookup c = none := by
  induction l with
  | nil => rfl
  | cons p l ih =>
    have hp := hl p (List.mem_cons_self ..)
    have hbeq : (c == p.1) = false := by
      rcases Bool.eq_false_or_eq_true (c == p.1) with h | h
      · exact absurd (congrArg Char.toNat (eq_of_beq h)) (by omega)
      · exact h
    simp only [List.lookup, hbeq]
    exact ih fun q hq => hl q (List.mem_cons_of_mem _ hq)

/-- Every key of the accent table lies above 7-bit ASCII. -/
theorem accentMap_keys_high : ∀ p ∈ accentMap, 127 < p.1.toNat := by decide

/-- Unfolding `writeRepeated` at a count of exactly 64: one full REP block. -/
theorem writeRepeated_64 (c : Char) :
    writeRepeated c 64 = [c.toNat, CODES.REP, 127] := by
  rw [writeRepeated]
  norm_num

/-- The recursive split of `writeRepeated` above 64: full 64-blocks followed
by the encoding of the remainder chunk (which covers 1..64 repetitions). -/
theorem writeRepeated_split (c : Char) : ∀ n, 64 < n →
    writeRepeated c n =
      (List.replicate ((n - 1) / 64) [c.toNat, CODES.REP, 127]).flatten
        ++ writeRepeated c ((n - 1) % 64 + 1) := by
  intro n
  induction n using Nat.strong_induction_on with
  | _ n ih =>
    intro h
    rw [writeRepeated]
    rw [if_neg (by omega), if_neg (by omega), dif_neg (by omega)]
    rw [writeRepeated_64]
    by_cases h128 : n ≤ 128
    · have h1 : (n - 1) / 64 = 1 := by omega
      have h2 : (n - 1) % 64 + 1 = n - 64 := by omega
      rw [h1, h2]
      simp
    · have h64 : 64 < n - 64 := by omega
      rw [ih (n - 64) (by omega) h64]
      have h1 : (n - 1) / 64 = (n - 64 - 1) / 64 + 1 := by omega
      have h2 : (n - 1) % 64 = (n - 64 - 1) % 64 := by omega
      rw [h1, h2, List.replicate_succ]
      simp

/-- A reply accepted by the identification wait predicate always parses into
a device descriptor (the lookup falls back to the bistandard heuristic). -/
theorem parse_of_identMatches (d : List Nat) (h : identMatches d = true) :
    (parseDeviceIdentification d).isSome = true := by
  unfold identMatches at h
  simp only [Bool.and_eq_true, decide_eq_true_eq, beq_iff_eq] at h
  unfold parseDeviceIdentification
  rw [if_neg (by omega), if_neg (not_not_intro h.2)]
  dsimp only
  split <;> rfl

/-! ## Claim C9 -/

/-- Claim C9: `parseFunctionKey(bytes)` returns the second byte (the key
code) exactly when the input is a 2-byte sequence whose first byte is the
function-key lead byte 0x13; every other input (1 byte, 3 or more bytes, or
2 bytes with a different first byte) returns `none`. -/
theorem C9_parseFunctionKey :
    (∀ (data : List Nat) (k : Nat),
       parseFunctionKey data = some k ↔ data = [0x13, k]) ∧
    (∀ data : List Nat, data.length ≠ 2 → parseFunctionKey data = none) ∧
    (∀ a b : Nat, a ≠ 0x13 → parseFunctionKey [a, b] = none) := by
  refine ⟨?_, ?_, ?_⟩
  · intro data k
    match data with
    | [] => simp [parseFunctionKey]
    | [a] => simp [parseFunctionKey]
    | [a, b] =>
      by_cases h : a = 0x13
      · subst h
        simp [parseFunctionKey, CODES.FUNCTION_KEY_LEAD]
      · simp [parseFunctionKey, CODES.FUNCTION_KEY_LEAD, h]
    | a :: b :: c :: rest => simp [parseFunctionKey]
  · intro data h
    simp [parseFunctionKey, h]
  · intro a b h
    simp [parseFunctionKey, CODES.FUNCTION_KEY_LEAD, h]

/-- Witness for C9 at concrete inputs: a lone byte and a 2-byte non-0x13
sequence give `none`; the ENVOI key sequence gives its code. -/
theorem C9_witness :
    parseFunctionKey [0x41] = none ∧
    parseFunctionKey [0x20, 0x41] = none ∧
    parseFunctionKey [0x13, 0x41] = some 0x41 :=
  ⟨C9_parseFunctionKey.2.1 [0x41] (by decide),
   C9_parseFunctionKey.2.2 0x20 0x41 (by decide),
   (C9_parseFunctionKey.1 [0x13, 0x41] 0x41).mpr rfl⟩

/-! ## Claim C8 -/

/-- Claim C8: `moveCursor(row, col)` throws (sending nothing) exactly when
row is outside 0..24 or col outside 1..40; the boundary values are accepted;
every accepted call sends exactly the 3 bytes US, 0x40+row, 0x40+col. -/
theorem C8_moveCursor :
    (∀ row col : Int,
       isErr (moveCursor row col) = true ↔
         (row < 0 ∨ row > 24 ∨ col < 1 ∨ col > 40)) ∧
    (∀ row col : Int, 0 ≤ row → row ≤ 24 → 1 ≤ col → col ≤ 40 →
       moveCursor row col = Except.ok [0x1F, 0x40 + row.toNat, 0x40 + col.toNat]) ∧
    (isErr (moveCursor 0 1) = false ∧ isErr (moveCursor 24 40) = false ∧
     isErr (moveCursor 0 40) = false ∧ isErr (moveCursor 24 1) = false) := by
  refine ⟨?_, ?_, by decide, by decide, by decide, by decide⟩
  · intro row col
    unfold moveCursor
    split
    · next h => simp [isErr, h]
    · next h => simp [isErr, h]
  · intro row col h0 h24 hc1 hc40
    unfold moveCursor
    rw [if_neg (by omega)]
    have hr : ((CODES.CURSOR_OFFSET : Int) + row).toNat = 0x40 + row.toNat := by
      unfold CODES.CURSOR_OFFSET; omega
    have hc : ((CODES.CURSOR_OFFSET : Int) + col).toNat = 0x40 + col.toNat := by
      unfold CODES.CURSOR_OFFSET; omega
    rw [hr, hc]
    rfl

/-- Witness for C8: the in-range call (3, 7) sends US, 0x43, 0x47, and the
out-of-range row 25 is rejected. -/
theorem C8_witness :
    moveCursor 3 7 = Except.ok [0x1F, 0x43, 0x47] ∧
    isErr (moveCursor 25 1) = true :=
  ⟨by
    have := C8_moveCursor.2.1 3 7 (by decide) (by decide) (by decide) (by decide)
    simpa using this,
   (C8_moveCursor.1 25 1).mpr (by omega)⟩

/-! ## Claim C7 -/

/-- Claim C7: a character with code point at most 127 (never present in the
table) passes through as that single byte; a character above 127 absent from
the accent / special-symbol / typographic-quote table becomes the single
placeholder byte 0x3F; every character present in the table yields its fixed
byte sequence, the typographic quotes and guillemets mapping to the plain
ASCII apostrophe 0x27 and double quote 0x22. -/
theorem C7_charToMinitel :
    (∀ c : Char, c.toNat ≤ 127 → charToMinitel c = [c.toNat]) ∧
    (∀ c : Char, 127 < c.toNat → accentMap.lookup c = none →
       charToMinitel c = [0x3F]) ∧
    (∀ c bs, accentMap.lookup c = some bs → charToMinitel c = bs) ∧
    (charToMinitel '’' = [0x27] ∧ charToMinitel '‘' = [0x27] ∧
     charToMinitel '”' = [0x22] ∧ charToMinitel '“' = [0x22] ∧
     charToMinitel '«' = [0x22] ∧ charToMinitel '»' = [0x22] ∧
     charToMinitel '‹' = [0x27] ∧ charToMinitel '›' = [0x27]) := by
  refine ⟨?_, ?_, ?_, by decide⟩
  · intro c hc
    have hn : accentMap.lookup c = none :=
      lookup_none_of_high accentMap c accentMap_keys_high hc
    unfold charToMinitel
    rw [hn, if_pos hc]
  · intro c hc hn
    unfold charToMinitel
    rw [hn, if_neg (by omega)]
  · intro c bs h
    unfold charToMinitel
    rw [h]

/-- Witness for C7: the ASCII letter A passes through, the unsupported cent
sign becomes the placeholder, and the accented é gets its table sequence. -/
theorem C7_witness :
    charToMinitel 'A' = [0x41] ∧
    charToMinitel '¢' = [0x3F] ∧
    charToMinitel 'é' = [0x19, 0x42, 0x65] :=
  ⟨C7_charToMinitel.1 'A' (by decide),
   C7_charToMinitel.2.1 '¢' (by decide) (by decide),
   C7_charToMinitel.2.2.1 'é' [0x19, 0x42, 0x65] (by decide)⟩

/-! ## Claim C2 -/

/-- Claim C2: for a count of 1..3, `writeRepeated` emits exactly the literal
encodings of the character; for 4..64 it emits exactly the 3 bytes character
code, REP = 0x12, count−1+0x40; above 64 the output is the recursive split
into ceil(count/64) chunks of at most 64 repetitions: full 64-repetition REP
blocks followed by the encoding of the final chunk of (count−1) mod 64 + 1
repetitions. -/
theorem C2_writeRepeated (c : Char) (n : Nat) (hn : 1 ≤ n) :
    (n ≤ 3 → writeRepeated c n = (List.replicate n (charToMinitel c)).flatten) ∧
    (4 ≤ n → n ≤ 64 →
       writeRepeated c n = [c.toNat, 0x12, n - 1 + 0x40] ∧
       (writeRepeated c n).length = 3) ∧
    (64 < n →
       writeRepeated c n =
         (List.replicate ((n - 1) / 64) [c.toNat, 0x12, 0x7F]).flatten
           ++ writeRepeated c ((n - 1) % 64 + 1) ∧
       1 ≤ (n - 1) % 64 + 1 ∧ (n - 1) % 64 + 1 ≤ 64 ∧
       (n - 1) / 64 + 1 = (n + 63) / 64) := by
  refine ⟨?_, ?_, ?_⟩
  · intro h3
    rw [writeRepeated, if_neg (by omega), if_pos h3]
    unfold writeText
    rw [List.map_replicate]
  · intro h4 h64
    have : writeRepeated c n = [c.toNat, 0x12, n - 1 + 0x40] := by
      rw [writeRepeated, if_neg (by omega), if_neg (by omega), dif_pos h64]
      rfl
    exact ⟨this, by rw [this]; rfl⟩
  · intro h
    refine ⟨?_, by omega, by omega, by omega⟩
    have := writeRepeated_split c n h
    simpa [CODES.REP] using this

/-- Witness for C2 at one input per branch: counts 2, 10 and 130 for the
letter A. -/
theorem C2_witness :
    writeRepeated 'A' 2 = (List.replicate 2 (charToMinitel 'A')).flatten ∧
    writeRepeated 'A' 10 = [0x41, 0x12, 10 - 1 + 0x40] ∧
    writeRepeated 'A' 130 =
      (List.replicate ((130 - 1) / 64) [0x41, 0x12, 0x7F]).flatten
        ++ writeRepeated 'A' ((130 - 1) % 64 + 1) :=
  ⟨(C2_writeRepeated 'A' 2 (by decide)).1 (by decide),
   ((C2_writeRepeated 'A' 10 (by decide)).2.1 (by decide) (by decide)).1,
   ((C2_writeRepeated 'A' 130 (by decide)).2.2 (by decide)).1⟩

/-! ## Claim C10 -/

/-- Counterexample to claim C10 as stated: the string "WHITE" is not in the
format-name table (whose keys are all lowercase), yet `setFormat` does not
raise a validation error for it — the argument is lowercased before the
lookup, so it resolves to the white grayscale code. -/
theorem C10_counterexample :
    ("WHITE" ∈ formatCodes.map Prod.fst → False) ∧
    setFormat (FormatArg.str "WHITE") = Except.ok [0x1B, 0x47] ∧
    isErr (setFormat (FormatArg.str "WHITE")) = false :=
  ⟨by decide, rfl, rfl⟩

/-- Claim C10, amended: `setFormat` lowercases a string argument before the
table lookup, so it raises the invalid-format validation error (listing the
valid names) exactly when the lowercased string is absent from the table, and
sends ESC followed by the resolved code otherwise; a numeric argument is sent
as ESC followed by that code with no validation at all. -/
theorem C10_setFormat_amended :
    (∀ s : String,
       isErr (setFormat (FormatArg.str s)) = true ↔
         formatCodes.lookup (jsToLower s) = none) ∧
    (∀ s c, formatCodes.lookup (jsToLower s) = some c →
       setFormat (FormatArg.str s) = Except.ok [0x1B, c]) ∧
    (∀ s, formatCodes.lookup (jsToLower s) = none →
       setFormat (FormatArg.str s) =
         Except.error (CmdError.invalidFormat (formatCodes.map Prod.fst))) ∧
    (∀ n : Nat, setFormat (FormatArg.num n) = Except.ok [0x1B, n]) ∧
    formatCodes.map Prod.fst =
      ["white", "very-light", "light", "medium-light", "medium", "medium-dark",
       "dark", "black", "white-background", "black-background", "normal",
       "double-height", "double-width", "double", "blink", "steady"] := by
  refine ⟨?_, ?_, ?_, fun n => rfl, by decide⟩
  · intro s
    unfold setFormat
    cases h : formatCodes.lookup (jsToLower s) <;> simp [isErr, h]
  · intro s c h
    simp only [setFormat]
    rw [h]
    rfl
  · intro s h
    simp only [setFormat]
    rw [h]

/-- Witness for C10 at concrete inputs: the mixed-case name "Blink" resolves
(its lowercased form is in the table) and the unknown name "bogus" raises the
validation error listing the valid names. -/
theorem C10_witness :
    setFormat (FormatArg.str "Blink") = Except.ok [0x1B, 0x48] ∧
    setFormat (FormatArg.str "bogus") =
      Except.error (CmdError.invalidFormat (formatCodes.map Prod.fst)) :=
  ⟨C10_setFormat_amended.2.1 "Blink" 0x48 rfl,
   C10_setFormat_amended.2.2.1 "bogus" rfl⟩

/-! ## Claim C6 -/

/-- Everything the framer flushes is exactly what arrived, in order. -/
theorem frameAux_flatten :
    ∀ (arrivals : List (Nat × List Nat)) (acc : List Nat) (deadline : Nat),
      (frameAux acc deadline arrivals).flatten =
        acc ++ (arrivals.map Prod.snd).flatten := by
  intro arrivals
  induction arrivals with
  | nil =>
    intro acc dl
    cases acc <;> simp [frameAux]
  | cons p rest ih =>
    intro acc dl
    obtain ⟨t, bs⟩ := p
    rw [frameAux]
    split
    · simp [ih]
    · simp [ih]

/-- Claim C6: the framer appends every received byte to the accumulator and
restarts the 50 ms inactivity timer; a timer expiry flushes the whole
accumulation as one event and clears the accumulator.  Hence two bytes
arriving within the window are flushed as one event, a byte followed by a
quiet gap exceeding the window and a second byte are flushed as two events,
and the concatenation of all flushed events is exactly the arrived bytes. -/
theorem C6_inputFramer :
    inactivityWindow = 50 ∧
    (∀ t1 t2 b1 b2 : Nat, t1 < t2 → t2 ≤ t1 + inactivityWindow →
       frame [(t1, [b1]), (t2, [b2])] = [[b1, b2]]) ∧
    (∀ t1 t2 b1 b2 : Nat, t1 + inactivityWindow < t2 →
       frame [(t1, [b1]), (t2, [b2])] = [[b1], [b2]]) ∧
    (∀ t : Nat, ∀ bs : List Nat, bs ≠ [] → frame [(t, bs)] = [bs]) ∧
    (∀ arrivals : List (Nat × List Nat),
       (frame arrivals).flatten = (arrivals.map Prod.snd).flatten) := by
  refine ⟨rfl, ?_, ?_, ?_, ?_⟩
  · intro t1 t2 b1 b2 _hlt hle
    rw [frame, frameAux, if_neg (by simp), frameAux,
        if_neg (by rintro ⟨-, h⟩; omega), frameAux]
    simp
  · intro t1 t2 b1 b2 hgap
    rw [frame, frameAux, if_neg (by simp), frameAux,
        if_pos (by constructor <;> simp [hgap]), frameAux]
    simp
  · intro t bs hbs
    rw [frame, frameAux, if_neg (by simp), frameAux]
    simp [hbs]
  · intro arrivals
    rw [frame, frameAux_flatten]
    rfl

/-- Witness for C6: two bytes 30 ms apart merge into one event; 60 ms apart
they are two events. -/
theorem C6_witness :
    frame [(100, [0x13]), (130, [0x41])] = [[0x13, 0x41]] ∧
    frame [(100, [0x13]), (160, [0x41])] = [[0x13], [0x41]] ∧
    frame [(100, [0x61])] = [[0x61]] :=
  ⟨C6_inputFramer.2.1 100 130 0x13 0x41 (by decide) (by decide),
   C6_inputFramer.2.2.1 100 160 0x13 0x41 (by decide),
   C6_inputFramer.2.2.2.1 100 [0x61] (by decide)⟩

/-! ## Claim C1 -/

/-- Counterexample to claim C1 as stated: with a wait outstanding (registered
through the driver's active `_waitForResponse`, here with the identification
predicate), the flushed event 0x41 matches no pending-reply entry — the entry
collection is empty, since the active `_waitForResponse` never registers one —
yet it is NOT delivered to the application's onData callback: it is captured
by the wait's accumulating handler instead. -/
theorem C1_counterexample :
    (registerWait identMatches initDriver).expectedReplies = [] ∧
    firstMatch [0x41] (registerWait identMatches initDriver).expectedReplies = none ∧
    (flushInput [0x41] (registerWait identMatches initDriver)).appDelivered = [] ∧
    (flushInput [0x41] (registerWait identMatches initDriver)).waiting.map
      (fun w => w.responseData) = some [0x41] :=
  ⟨rfl, rfl, rfl, rfl⟩

/-- Claim C1, amended: on each flush the framer first tests the pending-reply
entries' predicates in registration order, and the first matching entry is
resolved with the flushed bytes while the event is consumed (nothing reaches
onData).  However, the entry-registering `_waitForResponse` is shadowed by a
second definition that replaces the application's onData callback instead, so
no entry is ever registered; an event matching no entry goes to the current
onData callback — while a wait is outstanding that is the wait's handler,
which appends the event to the wait's buffer without delivering it to the
application; only when no wait is outstanding is the event delivered
unchanged to the application. -/
theorem C1_flushRouting_amended :
    (∀ (ents : List ReplyEntry) (b : List Nat) (e : ReplyEntry) (rest : List ReplyEntry),
       firstMatch b ents = some (e, rest) →
         ∃ pre post, ents = pre ++ e :: post ∧ rest = pre ++ post ∧
           e.pred b = true ∧ ∀ e2 ∈ pre, e2.pred b = false) ∧
    (∀ (ents : List ReplyEntry) (b : List Nat),
       firstMatch b ents = none ↔ ∀ e ∈ ents, e.pred b = false) ∧
    (∀ (d : DriverIn) (b : List Nat) (e : ReplyEntry) (rest : List ReplyEntry),
       firstMatch b d.expectedReplies = some (e, rest) →
         (flushInput b d).expectedReplies = rest ∧
         (flushInput b d).resolvedEntries = d.resolvedEntries ++ [(e.id, b)] ∧
         (flushInput b d).appDelivered = d.appDelivered ∧
         (flushInput b d).waiting = d.waiting) ∧
    (∀ (d : DriverIn) (b : List Nat),
       firstMatch b d.expectedReplies = none → d.waiting = none →
         flushInput b d = { d with appDelivered := d.appDelivered ++ [b] }) ∧
    (∀ (d : DriverIn) (b : List Nat) (w : WaitState),
       firstMatch b d.expectedReplies = none → d.waiting = some w →
         (flushInput b d).appDelivered = d.appDelivered ∧
         (if w.pred (w.responseData ++ b) = true then
            (flushInput b d).waiting = none ∧
              (flushInput b d).waitOutcome =
                some (WaitOutcome.resolved (w.responseData ++ b))
          else
            (flushInput b d).waiting = some ⟨w.pred, w.responseData ++ b⟩)) ∧
    (∀ evs : List DrvEv, (runEvents initDriver evs).expectedReplies = []) := by
  refine ⟨?_, ?_, ?_, ?_, ?_, ?_⟩
  · intro ents
    induction ents with
    | nil => intro b e rest h; exact absurd h (by simp [firstMatch])
    | cons e0 tl ih =>
      intro b e rest h
      rw [firstMatch] at h
      by_cases hp : e0.pred b
      · rw [if_pos hp] at h
        have h' := Option.some.inj h
        have he : e0 = e := congrArg Prod.fst h'
        have hr : tl = rest := congrArg Prod.snd h'
        exact ⟨[], tl, by simp [he], by simp [hr], by rw [← he]; exact hp, by simp⟩
      · rw [if_neg hp] at h
        cases hm : firstMatch b tl with
        | none => rw [hm] at h; exact absurd h (by simp)
        | some p =>
          obtain ⟨m, rest2⟩ := p
          rw [hm] at h
          have h' := Option.some.inj h
          have hme : m = e := congrArg Prod.fst h'
          have hrest : e0 :: rest2 = rest := congrArg Prod.snd h'
          obtain ⟨pre, post, h1, h2, h3, h4⟩ := ih b m rest2 hm
          subst hme
          refine ⟨e0 :: pre, post, by rw [h1]; rfl, by rw [← hrest, h2]; rfl, h3, ?_⟩
          intro e2 he2
          rcases List.mem_cons.mp he2 with h5 | h5
          · subst h5
            simpa using hp
          · exact h4 e2 h5
  · intro ents b
    induction ents with
    | nil => simp [firstMatch]
    | cons e0 tl ih =>
      rw [firstMatch]
      by_cases hp : e0.pred b
      · rw [if_pos hp]
        simp [hp]
      · rw [if_neg hp]
        cases hm : firstMatch b tl with
        | none =>
          simp only [List.mem_cons]
          constructor
          · intro _ e2 he2
            rcases he2 with h' | h'
            · subst h'; simpa using hp
            · exact (ih.mp hm) e2 h'
          · intro _; trivial
        | some p =>
          obtain ⟨m, rest2⟩ := p
          simp only [List.mem_cons]
          constructor
          · intro hcontra; exact absurd hcontra (by simp)
          · intro hall
            have hnone : firstMatch b tl = none :=
              ih.mpr fun e2 he2 => hall e2 (Or.inr he2)
            rw [hnone] at hm
            exact absurd hm (by simp)
  · intro d b e rest h
    unfold flushInput
    rw [h]
    exact ⟨rfl, rfl, rfl, rfl⟩
  · intro d b h hw
    unfold flushInput
    rw [h, hw]
  · intro d b w h hw
    unfold flushInput
    rw [h, hw]
    dsimp only
    by_cases hp : w.pred (w.responseData ++ b) = true
    · rw [if_pos hp, if_pos hp]
      exact ⟨rfl, rfl, rfl⟩
    · rw [if_neg (by simpa using hp), if_neg hp]
      exact ⟨rfl, rfl⟩
  · have step : ∀ (d : DriverIn) (e : DrvEv), d.expectedReplies = [] →
        (stepEv d e).expectedReplies = [] := by
      intro d e hd
      cases e with
      | flushEv b =>
        show (flushInput b d).expectedReplies = []
        unfold flushInput
        rw [hd, show firstMatch b ([] : List ReplyEntry) = none from rfl]
        cases d.waiting with
        | none => rfl
        | some w =>
          dsimp only
          by_cases hp : w.pred (w.responseData ++ b) = true
          · rw [if_pos hp]
          · rw [if_neg hp]
      | regWaitEv p => exact hd
      | timerEv =>
        show (fireWaitTimer d).expectedReplies = []
        unfold fireWaitTimer
        cases d.waiting <;> simpa
    intro evs
    suffices h : ∀ (d : DriverIn), d.expectedReplies = [] →
        (runEvents d evs).expectedReplies = [] from h initDriver rfl
    induction evs with
    | nil => intro d hd; exact hd
    | cons e tl ih => intro d hd; exact ih (stepEv d e) (step d e hd)

/-- Witness for C1 (amended) at concrete inputs: with no wait outstanding a
flushed event is delivered to the application; a registered entry matching
the flush is resolved with the flushed bytes and consumed; and a run of the
driver from construction never has a pending-reply entry. -/
theorem C1_witness :
    flushInput [0x41] initDriver = { initDriver with appDelivered := [[0x41]] } ∧
    (flushInput [0x13, 0x41]
        { initDriver with
            expectedReplies := [⟨0, fun b => b.getD 0 0 == 0x13⟩] }).resolvedEntries =
      [(0, [0x13, 0x41])] ∧
    (runEvents initDriver
        [DrvEv.regWaitEv identMatches, DrvEv.flushEv [0x41],
         DrvEv.timerEv]).expectedReplies = [] := by
  refine ⟨?_, ?_, ?_⟩
  · exact C1_flushRouting_amended.2.2.2.1 initDriver [0x41] rfl rfl
  · have := C1_flushRouting_amended.2.2.1
      { initDriver with expectedReplies := [⟨0, fun b => b.getD 0 0 == 0x13⟩] }
      [0x13, 0x41] ⟨0, fun b => b.getD 0 0 == 0x13⟩ [] rfl
    exact this.2.1
  · exact C1_flushRouting_amended.2.2.2.2.2
      [DrvEv.regWaitEv identMatches, DrvEv.flushEv [0x41], DrvEv.timerEv]

/-! ## Claim C5 -/

/-- Claim C5: a wait registered through the driver's active
`_waitForResponse` has exactly one outcome.  A settled wait (outcome
recorded, handler restored) is absorbing — no later flush or timer event
changes it, because resolution cleared the timeout and timeout restored the
application handler.  A flush whose accumulated bytes satisfy the predicate
resolves the wait with those bytes and deregisters the handler (cancelling
the timeout path); the timeout firing rejects the wait and deregisters the
handler (cancelling the resolution path).  After a timeout every subsequent
flush is delivered to the application — none can resolve the wait or be
spuriously matched by it. -/
theorem C5_waitExactlyOneOutcome :
    (∀ (d : DriverIn) (evs : List DrvEv) (o : WaitOutcome),
       (∀ e ∈ evs, isRegEv e = false) →
       d.waiting = none → d.waitOutcome = some o →
       (runEvents d evs).waitOutcome = some o ∧ (runEvents d evs).waiting = none) ∧
    (∀ (d : DriverIn) (b : List Nat) (w : WaitState),
       d.waiting = some w → firstMatch b d.expectedReplies = none →
       w.pred (w.responseData ++ b) = true →
       (flushInput b d).waiting = none ∧
       (flushInput b d).waitOutcome = some (WaitOutcome.resolved (w.responseData ++ b))) ∧
    (∀ (d : DriverIn) (w : WaitState), d.waiting = some w →
       fireWaitTimer d =
         { d with waiting := none, waitOutcome := some WaitOutcome.timedOut }) ∧
    (∀ (d : DriverIn) (evs : List DrvEv),
       (∀ e ∈ evs, isRegEv e = false) →
       d.waiting = none → d.expectedReplies = [] →
       (runEvents d evs).appDelivered = d.appDelivered ++ flushedOf evs ∧
       (runEvents d evs).waitOutcome = d.waitOutcome) := by
  have stepNoWait : ∀ (d : DriverIn) (e : DrvEv), isRegEv e = false →
      d.waiting = none →
      (stepEv d e).waiting = none ∧ (stepEv d e).waitOutcome = d.waitOutcome := by
    intro d e hreg hw
    cases e with
    | flushEv b =>
      show (flushInput b d).waiting = none ∧ (flushInput b d).waitOutcome = d.waitOutcome
      unfold flushInput
      cases hm : firstMatch b d.expectedReplies with
      | none => rw [hw]; exact ⟨rfl, rfl⟩
      | some p => obtain ⟨e1, rest⟩ := p; exact ⟨hw, rfl⟩
    | regWaitEv p => exact absurd hreg (by simp [isRegEv])
    | timerEv =>
      show (fireWaitTimer d).waiting = none ∧ (fireWaitTimer d).waitOutcome = d.waitOutcome
      unfold fireWaitTimer
      rw [hw]
      exact ⟨hw, rfl⟩
  have flushedCons : ∀ (e : DrvEv) (tl : List DrvEv),
      flushedOf (e :: tl) = flushedOf [e] ++ flushedOf tl := by
    intro e tl
    cases e <;> simp [flushedOf]
  refine ⟨?_, ?_, ?_, ?_⟩
  · intro d evs
    induction evs generalizing d with
    | nil => intro o _ hw ho; exact ⟨ho, hw⟩
    | cons e tl ih =>
      intro o hreg hw ho
      have he := stepNoWait d e (hreg e (List.mem_cons_self ..)) hw
      exact ih (stepEv d e) o (fun x hx => hreg x (List.mem_cons_of_mem _ hx))
        he.1 (he.2 ▸ ho)
  · intro d b w hw hm hp
    unfold flushInput
    rw [hm, hw]
    dsimp only
    rw [if_pos hp]
    exact ⟨rfl, rfl⟩
  · intro d w hw
    unfold fireWaitTimer
    rw [hw]
  · intro d evs
    induction evs generalizing d with
    | nil => intro _ _ _; simp [runEvents, flushedOf]
    | cons e tl ih =>
      intro hreg hw hents
      have hstep : (stepEv d e).waiting = none ∧ (stepEv d e).waitOutcome = d.waitOutcome :=
        stepNoWait d e (hreg e (List.mem_cons_self ..)) hw
      have hents2 : (stepEv d e).expectedReplies = [] := by
        cases e with
        | flushEv b =>
          show (flushInput b d).expectedReplies = []
          unfold flushInput
          rw [hents, hw]
          rfl
        | regWaitEv p => exact absurd (hreg _ (List.mem_cons_self ..)) (by simp [isRegEv])
        | timerEv =>
          show (fireWaitTimer d).expectedReplies = []
          unfold fireWaitTimer
          rw [hw]
          exact hents
      have happ : (stepEv d e).appDelivered =
          d.appDelivered ++ (flushedOf [e]) := by
        cases e with
        | flushEv b =>
          show (flushInput b d).appDelivered = _
          unfold flushInput
          rw [hents, hw]
          rfl
        | regWaitEv p => exact absurd (hreg _ (List.mem_cons_self ..)) (by simp [isRegEv])
        | timerEv =>
          show (fireWaitTimer d).appDelivered = _
          unfold fireWaitTimer
          rw [hw]
          simp [flushedOf]
      have ihr := ih (stepEv d e) (fun x hx => hreg x (List.mem_cons_of_mem _ hx))
        hstep.1 hents2
      refine ⟨?_, ?_⟩
      · show (runEvents (stepEv d e) tl).appDelivered = d.appDelivered ++ flushedOf (e :: tl)
        rw [ihr.1, happ]
        cases e <;> simp [flushedOf]
      · show (runEvents (stepEv d e) tl).waitOutcome = d.waitOutcome
        rw [ihr.2, hstep.2]

/-- Witness for C5 at concrete inputs: a flush whose bytes satisfy the
identification predicate resolves the outstanding wait with those bytes; the
timeout firing on an outstanding wait rejects it; and after the timeout a
later flush is delivered to the application with the outcome unchanged. -/
theorem C5_witness :
    (flushInput [0x01, 0x43, 0x76, 0x31, 0x04]
        (registerWait identMatches initDriver)).waitOutcome =
      some (WaitOutcome.resolved [0x01, 0x43, 0x76, 0x31, 0x04]) ∧
    fireWaitTimer (registerWait identMatches initDriver) =
      { registerWait identMatches initDriver with
          waiting := none, waitOutcome := some WaitOutcome.timedOut } ∧
    (runEvents (fireWaitTimer (registerWait identMatches initDriver))
        [DrvEv.flushEv [0x41]]).appDelivered = [[0x41]] ∧
    (runEvents (fireWaitTimer (registerWait identMatches initDriver))
        [DrvEv.flushEv [0x41]]).waitOutcome = some WaitOutcome.timedOut := by
  refine ⟨?_, ?_, ?_, ?_⟩
  · exact (C5_waitExactlyOneOutcome.2.1 (registerWait identMatches initDriver)
      [0x01, 0x43, 0x76, 0x31, 0x04] ⟨identMatches, []⟩ rfl rfl (by decide)).2
  · exact C5_waitExactlyOneOutcome.2.2.1 (registerWait identMatches initDriver)
      ⟨identMatches, []⟩ rfl
  · exact (C5_waitExactlyOneOutcome.2.2.2 (fireWaitTimer (registerWait identMatches initDriver))
      [DrvEv.flushEv [0x41]] (by simp [isRegEv]) rfl rfl).1
  · exact (C5_waitExactlyOneOutcome.1 (fireWaitTimer (registerWait identMatches initDriver))
      [DrvEv.flushEv [0x41]] WaitOutcome.timedOut (by simp [isRegEv]) rfl rfl).1

/-! ## Claim C3 -/

/-- Claim C3: with `baudRate: "auto"`, connect() probes exactly 1200, 4800,
9600 in ascending order; each candidate's probe opens the transport, sends
the identification query and awaits a reply accepted by the predicate
"starts with SOH and is at least 5 bytes"; a timed-out candidate's transport
is closed before (and within the trace segment preceding) the next
candidate's open; a matching reply parses into a device descriptor and makes
connect() succeed at that candidate's speed, the first such candidate
winning; and exhausting all three candidates yields the fatal failure
(`none`). -/
theorem C3_connectAuto :
    connectCandidates = [1200, 4800, 9600] ∧
    List.Chain' (· < ·) connectCandidates ∧
    (∀ d : List Nat,
       identMatches d = true ↔ (5 ≤ d.length ∧ d.getD 0 0 = CODES.SOH)) ∧
    (∀ d : List Nat, identMatches d = true →
       (parseDeviceIdentification d).isSome = true) ∧
    (∀ (env : Nat → ProbeResult) (r : Nat) (d : List Nat),
       env r = ProbeResult.identified d → identMatches d = true →
       candidateSucceeds env r = true) ∧
    (∀ (env : Nat → ProbeResult) (r : Nat), env r = ProbeResult.timeout →
       candidateTrace env r = [ConnEv.openPort r, ConnEv.sendQuery, ConnEv.closePort]) ∧
    (∀ env : Nat → ProbeResult,
       (connectAuto env).1 =
         candidateTrace env 1200 ++
           (if candidateSucceeds env 1200 = true then [] else
              candidateTrace env 4800 ++
                (if candidateSucceeds env 4800 = true then [] else
                   candidateTrace env 9600))) ∧
    (∀ env : Nat → ProbeResult,
       ((connectAuto env).2 = some 1200 ↔ candidateSucceeds env 1200 = true) ∧
       ((connectAuto env).2 = some 4800 ↔
          candidateSucceeds env 1200 = false ∧ candidateSucceeds env 4800 = true) ∧
       ((connectAuto env).2 = some 9600 ↔
          candidateSucceeds env 1200 = false ∧ candidateSucceeds env 4800 = false ∧
            candidateSucceeds env 9600 = true) ∧
       ((connectAuto env).2 = none ↔
          candidateSucceeds env 1200 = false ∧ candidateSucceeds env 4800 = false ∧
            candidateSucceeds env 9600 = false)) := by
  refine ⟨rfl,
    by rw [show connectCandidates = [1200, 4800, 9600] from rfl]
       norm_num [List.chain'_cons],
    ?_, parse_of_identMatches, ?_, ?_, ?_, ?_⟩
  · intro d
    unfold identMatches
    simp [Bool.and_eq_true, decide_eq_true_eq, beq_iff_eq]
  · intro env r d henv hm
    unfold candidateSucceeds
    rw [henv]
    exact parse_of_identMatches d hm
  · intro env r henv
    unfold candidateTrace
    rw [henv]
  · intro env
    show (connectGo env [1200, 4800, 9600]).1 = _
    rw [connectGo, connectGo, connectGo, connectGo]
    cases h1 : candidateSucceeds env 1200 <;>
      cases h2 : candidateSucceeds env 4800 <;>
        cases h3 : candidateSucceeds env 9600 <;>
          simp [h1, h2, h3]
  · intro env
    simp only [connectAuto, connectCandidates]
    rw [connectGo, connectGo, connectGo, connectGo]
    cases h1 : candidateSucceeds env 1200 <;>
      cases h2 : candidateSucceeds env 4800 <;>
        cases h3 : candidateSucceeds env 9600 <;>
          simp [h1, h2, h3]

/-- Witness for C3 at a concrete environment in which 1200 times out and 4800
answers with a Minitel 2 identification reply: the first candidate's segment
closes its transport, and connect() succeeds at 4800 after the full traced
sequence open(1200), query, close, open(4800), query, clear. -/
theorem C3_witness :
    candidateTrace
        (fun r => if r = 4800 then
           ProbeResult.identified [0x01, 0x43, 0x76, 0x31, 0x04]
         else ProbeResult.timeout) 1200 =
      [ConnEv.openPort 1200, ConnEv.sendQuery, ConnEv.closePort] ∧
    (connectAuto
        (fun r => if r = 4800 then
           ProbeResult.identified [0x01, 0x43, 0x76, 0x31, 0x04]
         else ProbeResult.timeout)).2 = some 4800 ∧
    (connectAuto
        (fun r => if r = 4800 then
           ProbeResult.identified [0x01, 0x43, 0x76, 0x31, 0x04]
         else ProbeResult.timeout)).1 =
      [ConnEv.openPort 1200, ConnEv.sendQuery, ConnEv.closePort,
       ConnEv.openPort 4800, ConnEv.sendQuery, ConnEv.clearScreen] := by
  refine ⟨?_, ?_, ?_⟩
  · exact C3_connectAuto.2.2.2.2.2.1 _ 1200 rfl
  · exact ((C3_connectAuto.2.2.2.2.2.2.2 _).2.1).mpr ⟨rfl, by rfl⟩
  · have := C3_connectAuto.2.2.2.2.2.2.1
      (fun r => if r = 4800 then
         ProbeResult.identified [0x01, 0x43, 0x76, 0x31, 0x04]
       else ProbeResult.timeout)
    rw [this]
    rfl

/-! ## Claim C4 -/

/-- Counterexample to claim C4 as stated: starting at 1200 bauds with the
port open, an upgrade to 4800 whose command write succeeds but whose reopen
fails is a failed handshake, yet the driver does not proceed at the original
speed — `currentBaudRate` was already set to 4800 before the reopen, and the
port is left closed. -/
theorem C4_counterexample :
    (upgradeSpeed true false 4800 ⟨1200, true⟩).2.2 = false ∧
    (upgradeSpeed true false 4800 ⟨1200, true⟩).2.1 = ⟨4800, false⟩ ∧
    ((upgradeSpeed true false 4800 ⟨1200, true⟩).2.1.currentBaudRate = 1200 → False) :=
  ⟨rfl, rfl, by decide⟩

/-- Claim C4, amended: the upgrade is attempted exactly when it is enabled
and the identified device's maximum speed exceeds the current speed; a fully
successful handshake sends the speed-change command, closes the port and
reopens it at the new speed; whenever the handshake fails connect() still
resolves (the error is caught and only logged); a failure of the command
write leaves the driver at the original speed, but a failure of the reopen
happens after the speed field was already set, leaving the new speed
recorded and the port closed rather than the original speed. -/
theorem C4_upgradeSpeed_amended :
    (∀ (maxSpeed : Nat) (wOk rOk : Bool) (s : ConnState),
       finishConnect false maxSpeed wOk rOk s = ([], s, true)) ∧
    (∀ (maxSpeed : Nat) (wOk rOk : Bool) (s : ConnState),
       ¬ s.currentBaudRate < maxSpeed →
       finishConnect true maxSpeed wOk rOk s = ([], s, true)) ∧
    (∀ (au : Bool) (maxSpeed : Nat) (wOk rOk : Bool) (s : ConnState),
       (finishConnect au maxSpeed wOk rOk s).2.2 = true) ∧
    (∀ (maxSpeed code : Nat) (s : ConnState),
       speedCodes.lookup maxSpeed = some code →
       upgradeSpeed true true maxSpeed s =
         ([UpgEv.sendSpeedCmd code, UpgEv.closePort, UpgEv.reopenAt maxSpeed],
          ⟨maxSpeed, true⟩, true)) ∧
    (∀ (maxSpeed : Nat) (rOk : Bool) (s : ConnState),
       (upgradeSpeed false rOk maxSpeed s).2.1 = s ∧
       (upgradeSpeed false rOk maxSpeed s).2.2 = false) ∧
    (∀ (maxSpeed code : Nat) (s : ConnState),
       speedCodes.lookup maxSpeed = some code →
       (upgradeSpeed true false maxSpeed s).2.1 = ⟨maxSpeed, false⟩ ∧
       (upgradeSpeed true false maxSpeed s).2.2 = false) ∧
    (∀ (maxSpeed : Nat) (wOk rOk : Bool) (s : ConnState),
       s.currentBaudRate < maxSpeed →
       finishConnect true maxSpeed wOk rOk s =
         ((upgradeSpeed wOk rOk maxSpeed s).1,
          (upgradeSpeed wOk rOk maxSpeed s).2.1, true)) := by
  refine ⟨?_, ?_, ?_, ?_, ?_, ?_, ?_⟩
  · intro maxSpeed wOk rOk s
    unfold finishConnect
    simp
  · intro maxSpeed wOk rOk s h
    unfold finishConnect
    rw [if_neg (by simp [h])]
  · intro au maxSpeed wOk rOk s
    unfold finishConnect
    split
    · rfl
    · rfl
  · intro maxSpeed code s h
    unfold upgradeSpeed
    rw [h]
    rfl
  · intro maxSpeed rOk s
    unfold upgradeSpeed
    cases h : speedCodes.lookup maxSpeed with
    | none => exact ⟨rfl, rfl⟩
    | some code => exact ⟨rfl, rfl⟩
  · intro maxSpeed code s h
    unfold upgradeSpeed
    rw [h]
    exact ⟨rfl, rfl⟩
  · intro maxSpeed wOk rOk s h
    unfold finishConnect
    rw [if_pos (by simp [h])]

/-- Witness for C4 (amended) at concrete inputs: from 1200 bauds the fully
successful upgrade to 4800 sends the 0x76 speed code, closes and reopens at
4800; a failed write keeps the 1200-baud state; and connect() resolves even
when the attempted upgrade's reopen fails. -/
theorem C4_witness :
    upgradeSpeed true true 4800 ⟨1200, true⟩ =
      ([UpgEv.sendSpeedCmd 0x76, UpgEv.closePort, UpgEv.reopenAt 4800],
       ⟨4800, true⟩, true) ∧
    (upgradeSpeed false true 4800 ⟨1200, true⟩).2.1 = ⟨1200, true⟩ ∧
    (finishConnect true 4800 true false ⟨1200, true⟩).2.2 = true :=
  ⟨C4_upgradeSpeed_amended.2.2.2.1 4800 0x76 ⟨1200, true⟩ rfl,
   (C4_upgradeSpeed_amended.2.2.2.2.1 4800 true ⟨1200, true⟩).1,
   C4_upgradeSpeed_amended.2.2.1 true 4800 true false ⟨1200, true⟩⟩

end Minitel
